import Mathlib

/-!
Shallow embedding of `src/scripts/app.js`: an interactive cubic Bezier curve
with four draggable control points and six De Casteljau interpolation markers.

Coordinates are modelled as rationals.  The animation parameter `t` is a JS
double; every double reachable by the program is an integer multiple of
`2 ^ (-60)`, so the advance `t += 1 / 200; if (t > 1) t = 0.0` is embedded
exactly on that integer grid (`advanceGrid`, IEEE round to nearest, ties to
even) and wrapped into a function on rationals (`advanceT`).  Fallible JS
operations (reading a missing array index and then dereferencing `undefined`,
a `TypeError`) are modelled with `Option`.
-/

/-- Embedding of `class Point` (app.js 10-70): a drawable point. -/
structure Point where
  x : ℚ
  y : ℚ
  radius : ℚ
  color : String
  label : String
  deriving DecidableEq, Repr

/-- The default color of a point, `Point.DEFAULT_COLOR`. -/
def Point.defaultColor : String := "#e0e0e0"

/-- Embedding of `Point.contains` (app.js 44-51): axis-aligned bounding-box
hit test. -/
def Point.contains (p : Point) (x y : ℚ) : Bool :=
  decide (p.x - p.radius ≤ x) && decide (x ≤ p.x + p.radius) &&
    decide (p.y - p.radius ≤ y) && decide (y ≤ p.y + p.radius)

/-- Embedding of `class DraggablePoint extends Point` (app.js 78-138). -/
structure DraggablePoint extends Point where
  dragging : Bool
  deriving DecidableEq, Repr

/-- `DraggablePoint.HOVER_COLOR`. -/
def DraggablePoint.hoverColor : String := "#66a"

/-- `DraggablePoint.DRAG_COLOR`. -/
def DraggablePoint.dragColor : String := "blue"

/-- Embedding of `DraggablePoint.move` (app.js 111-114). -/
def DraggablePoint.move (p : DraggablePoint) (x y : ℚ) : DraggablePoint :=
  { p with x := x, y := y }

/-- Embedding of `DraggablePoint.hover` (app.js 119-121). -/
def DraggablePoint.hover (p : DraggablePoint) : DraggablePoint :=
  { p with color := DraggablePoint.hoverColor }

/-- Embedding of `DraggablePoint.drag` (app.js 126-129). -/
def DraggablePoint.drag (p : DraggablePoint) : DraggablePoint :=
  { p with dragging := true, color := DraggablePoint.dragColor }

/-- Embedding of `DraggablePoint.default` (app.js 134-137). -/
def DraggablePoint.toDefault (p : DraggablePoint) : DraggablePoint :=
  { p with dragging := false, color := Point.defaultColor }

/-- Bit length of a natural number, with explicit fuel. -/
def bitLen : Nat → Nat → Nat
  | 0, _ => 0
  | fuel + 1, n => if n = 0 then 0 else bitLen fuel (n / 2) + 1

/-- Round the value `n / 2 ^ 60` (for `n < 2 ^ 64`) to the nearest IEEE
double (53-bit significand, round to nearest, ties to even), returned as a
numerator on the same grid.  Values with at most 53 significant bits are
exact. -/
def round53 (n : Nat) : Nat :=
  if n < 2 ^ 53 then n
  else
    let g := 2 ^ (bitLen 64 n - 53)
    let q := n / g
    let r := n % g
    if 2 * r < g then q * g
    else if g < 2 * r then (q + 1) * g
    else if q % 2 = 0 then q * g else (q + 1) * g

/-- The IEEE double `1 / 200` (the JS expression `1 / BezierCurve.totalSteps`
with `totalSteps = 200`, app.js 179 and 379) as a numerator on the
`2 ^ (-60)` grid: the correctly rounded quotient `2 ^ 60 / 200`, round to
nearest, ties to even (the quotient lies in `[2 ^ 52, 2 ^ 53)`). -/
def fl005gr : Nat :=
  let q := 2 ^ 60 / 200
  let r := 2 ^ 60 % 200
  if 2 * r < 200 then q
  else if 200 < 2 * r then q + 1
  else if q % 2 = 0 then q else q + 1

/-- One unpaused advance of `t` on the double grid, embedding
`this.t += 1 / BezierCurve.totalSteps; if (this.t > 1) this.t = 0.0`
(app.js 377-381) with exact IEEE double addition. -/
def advanceGrid (n : Nat) : Nat :=
  let n2 := round53 (n + fl005gr)
  if 2 ^ 60 < n2 then 0 else n2

/-- The rational value of a grid numerator. -/
def gridToQ (n : Nat) : ℚ := (n : ℚ) / 2 ^ 60

/-- The grid numerator of a rational (exact on grid values). -/
def qToGrid (t : ℚ) : Nat := (⌊t * 2 ^ 60⌋).toNat

/-- The `t`-advance of app.js 377-381 as a function on rational `t`. -/
def advanceT (t : ℚ) : ℚ := gridToQ (advanceGrid (qToGrid t))

/-- The orbit of `t` on the double grid under unpaused advances, starting
from the constructor value `t = 0`. -/
def tOrbit (k : Nat) : Nat := advanceGrid^[k] 0

/-- Embedding of `class BezierCurve` (app.js 152-383). -/
structure BezierCurve where
  controlPoints : List DraggablePoint
  interpolationPoints : List Point
  t : ℚ
  dragging : Bool
  hovering : Bool
  interpolating : Bool
  paused : Bool
  deriving DecidableEq, Repr

/-- The linear blend `(1 - t) * a + t * b` used by `interpolate`. -/
def lerp (t a b : ℚ) : ℚ := (1 - t) * a + t * b

/-- One iteration of the `Q` loop of `interpolate` (app.js 350-357):
`ip[i] := lerp(cp[i], cp[i+1], t)` componentwise, in place. -/
def updateQ (t : ℚ) (cps : List DraggablePoint) (ip : List Point) (i : Nat) :
    Option (List Point) := do
  let a ← cps[i]?
  let b ← cps[i + 1]?
  let m ← ip[i]?
  pure (ip.set i { m with x := lerp t a.x b.x, y := lerp t a.y b.y })

/-- One iteration of the `R` loop of `interpolate` (app.js 360-367):
`ip[i] := lerp(ip[i-3], ip[i-2], t)` componentwise, in place. -/
def updateR (t : ℚ) (ip : List Point) (i : Nat) : Option (List Point) := do
  let a ← ip[i - 3]?
  let b ← ip[i - 2]?
  let m ← ip[i]?
  pure (ip.set i { m with x := lerp t a.x b.x, y := lerp t a.y b.y })

/-- The `B` update of `interpolate` (app.js 370-375):
`ip[5] := lerp(ip[3], ip[4], t)` componentwise, in place. -/
def updateB (t : ℚ) (ip : List Point) : Option (List Point) := do
  let a ← ip[3]?
  let b ← ip[4]?
  let m ← ip[5]?
  pure (ip.set 5 { m with x := lerp t a.x b.x, y := lerp t a.y b.y })

/-- Embedding of `BezierCurve.interpolate` (app.js 348-382): update the six
markers in place from the current control points at the current `t`, then,
if not paused, advance `t`. -/
def interpolate (c : BezierCurve) : Option BezierCurve := do
  let ip1 ← updateQ c.t c.controlPoints c.interpolationPoints 0
  let ip2 ← updateQ c.t c.controlPoints ip1 1
  let ip3 ← updateQ c.t c.controlPoints ip2 2
  let ip4 ← updateR c.t ip3 3
  let ip5 ← updateR c.t ip4 4
  let ip6 ← updateB c.t ip5
  pure { c with
    interpolationPoints := ip6
    t := if c.paused then c.t else advanceT c.t }

/-- Embedding of `BezierCurve.isPaused` (app.js 333-335). -/
def BezierCurve.isPaused (c : BezierCurve) : Bool := c.paused

/-- Embedding of `BezierCurve.pause` (app.js 337-339). -/
def BezierCurve.pause (c : BezierCurve) : BezierCurve := { c with paused := true }

/-- Embedding of `BezierCurve.run` (app.js 341-343). -/
def BezierCurve.run (c : BezierCurve) : BezierCurve := { c with paused := false }

/-- Iterated calls to `interpolate`. -/
def interpolateN : Nat → BezierCurve → Option BezierCurve
  | 0, c => some c
  | n + 1, c => interpolate c >>= interpolateN n

/-- An input coordinate pair, the `coord` objects of app.js. -/
structure Coord where
  x : ℚ
  y : ℚ
  deriving DecidableEq, Repr

/-- One entry of the constructor input list: a coordinate and a label. -/
structure CPInput where
  coord : Coord
  label : String
  deriving DecidableEq, Repr

/-- Embedding of `BezierCurve.loadControlPoints` (app.js 253-260): replace
the control points with fresh `DraggablePoint`s of radius 12 and default
color, one per input entry, with no length validation. -/
def loadControlPoints (input : List CPInput) : List DraggablePoint :=
  input.map fun pt =>
    { x := pt.coord.x, y := pt.coord.y, radius := 12,
      color := Point.defaultColor, label := pt.label, dragging := false }

/-- A marker as created in the `BezierCurve` constructor:
`new Point({x, y}, 3, "black", label)`. -/
def mkMarker (x y : ℚ) (label : String) : Point :=
  { x := x, y := y, radius := 3, color := "black", label := label }

/-- Embedding of the `BezierCurve` constructor (app.js 194-241): load the
control points, create markers Q₀ Q₁ Q₂ from control points 0-2, R₀ R₁ from
control points 0-1, and B from marker index 3; reading a missing control
point is a JS `TypeError`, modelled as `none`. -/
def mkBezierCurve (input : List CPInput) : Option BezierCurve := do
  let cps := loadControlPoints input
  let c0 ← cps[0]?
  let c1 ← cps[1]?
  let c2 ← cps[2]?
  let ip5 := [mkMarker c0.x c0.y "Q₀", mkMarker c1.x c1.y "Q₁",
    mkMarker c2.x c2.y "Q₂", mkMarker c0.x c0.y "R₀", mkMarker c1.x c1.y "R₁"]
  let m3 ← ip5[3]?
  pure
    { controlPoints := cps
      interpolationPoints := ip5 ++ [mkMarker m3.x m3.y "B"]
      t := 0
      dragging := false
      hovering := false
      interpolating := false
      paused := false }

/-- A control-point move: `point.move(x, y)` applied to control point `k`,
as performed by the pointer handlers (app.js 431-455). -/
def moveControlPoint (c : BezierCurve) (k : Nat) (x y : ℚ) : BezierCurve :=
  match c.controlPoints[k]? with
  | some p => { c with controlPoints := c.controlPoints.set k (p.move x y) }
  | none => c

/-- The scan of the `pointerdown` handler (app.js 419-429): for each control
point in order, if it contains the pointer and no drag is active, start a
drag on it and raise the curve-level flag.  The JS `return` only ends one
`forEach` callback; later containing points are skipped by the
`!curve.dragging` guard, which this scan reproduces. -/
def pointerdownScan (x y : ℚ) :
    List DraggablePoint → Bool → List DraggablePoint × Bool
  | [], d => ([], d)
  | p :: rest, d =>
    if p.contains x y && !d then
      let r := pointerdownScan x y rest true
      (p.drag :: r.1, r.2)
    else
      let r := pointerdownScan x y rest d
      (p :: r.1, r.2)

/-- Embedding of the `pointerdown` handler (app.js 419-429). -/
def pointerdown (x y : ℚ) (c : BezierCurve) : BezierCurve :=
  let r := pointerdownScan x y c.controlPoints c.dragging
  { c with controlPoints := r.1, dragging := r.2 }

/-- Check that the first `k` grid values starting from `n` stay below `2 ^ 60`
(that is, the corresponding doubles stay below `1`). -/
def allBelow : Nat → Nat → Bool
  | 0, _ => true
  | k + 1, n => decide (n < 2 ^ 60) && allBelow k (advanceGrid n)

/-- The De Casteljau marker list computed by one `interpolate` call at
parameter `t` from control points `p0 p1 p2 p3`, preserving the
non-coordinate fields of the previous markers `m0 ... m5`:
`Q i = lerp (P i) (P (i+1))`, `R i = lerp (Q i) (Q (i+1))`, `B = lerp R0 R1`,
each applied independently to `x` and `y`. -/
def deCasteljau (t : ℚ) (p0 p1 p2 p3 : DraggablePoint)
    (m0 m1 m2 m3 m4 m5 : Point) : List Point :=
  let q0x := lerp t p0.x p1.x
  let q0y := lerp t p0.y p1.y
  let q1x := lerp t p1.x p2.x
  let q1y := lerp t p1.y p2.y
  let q2x := lerp t p2.x p3.x
  let q2y := lerp t p2.y p3.y
  let r0x := lerp t q0x q1x
  let r0y := lerp t q0y q1y
  let r1x := lerp t q1x q2x
  let r1y := lerp t q1y q2y
  [{ m0 with x := q0x, y := q0y }, { m1 with x := q1x, y := q1y },
    { m2 with x := q2x, y := q2y }, { m3 with x := r0x, y := r0y },
    { m4 with x := r1x, y := r1y },
    { m5 with x := lerp t r0x r1x, y := lerp t r0y r1y }]

/-- The calls issued to the 2D canvas context, one constructor per context
method or style assignment used by app.js.  The constant `arc` angle
arguments (`0`, `Math.PI * 2`, `false`) are the same in every call and are
omitted. -/
inductive DrawCall where
  | beginPath
  | closePath
  | stroke
  | fill
  | strokeStyle (s : String)
  | fillStyle (s : String)
  | lineWidth (w : ℚ)
  | font (f : String)
  | moveTo (x y : ℚ)
  | lineTo (x y : ℚ)
  | bezierCurveTo (x1 y1 x2 y2 x3 y3 : ℚ)
  | arc (x y r : ℚ)
  | fillText (s : String) (x y : ℚ)
  | clearRect
  deriving DecidableEq, Repr

/-- Embedding of `Point.draw` (app.js 58-69) as the emitted sequence of
canvas calls; the label offset factor `2.2` is modelled as `11 / 5`. -/
def Point.draw (p : Point) : List DrawCall :=
  [DrawCall.beginPath, DrawCall.arc p.x p.y p.radius,
    DrawCall.fillStyle p.color, DrawCall.fill, DrawCall.closePath] ++
    (if p.label ≠ "" then
      [DrawCall.font "24px sans-serif", DrawCall.fillStyle "#333",
        DrawCall.fillText p.label (p.x - 16) (p.y - p.radius * (11 / 5))]
    else [])

/-- Embedding of `BezierCurve.draw` (app.js 267-331): the curve primitive,
the control polygon, the control points, and, only when `interpolating`, the
overlay segments Q0-Q1-Q2 and R0-R1 followed by the six markers. -/
def BezierCurve.draw (c : BezierCurve) : Option (List DrawCall) := do
  let p0 ← c.controlPoints[0]?
  let p1 ← c.controlPoints[1]?
  let p2 ← c.controlPoints[2]?
  let p3 ← c.controlPoints[3]?
  let curvePart : List DrawCall :=
    [DrawCall.beginPath, DrawCall.strokeStyle "blue", DrawCall.lineWidth 5,
      DrawCall.moveTo p0.x p0.y,
      DrawCall.bezierCurveTo p1.x p1.y p2.x p2.y p3.x p3.y, DrawCall.stroke,
      DrawCall.strokeStyle "#888", DrawCall.lineWidth 1,
      DrawCall.moveTo p0.x p0.y, DrawCall.lineTo p1.x p1.y, DrawCall.stroke,
      DrawCall.lineTo p2.x p2.y, DrawCall.stroke,
      DrawCall.lineTo p3.x p3.y, DrawCall.stroke, DrawCall.closePath]
  let cpPart := (c.controlPoints.map fun p => p.toPoint.draw).flatten
  if c.interpolating then do
    let i0 ← c.interpolationPoints[0]?
    let i1 ← c.interpolationPoints[1]?
    let i2 ← c.interpolationPoints[2]?
    let i3 ← c.interpolationPoints[3]?
    let i4 ← c.interpolationPoints[4]?
    let overlay : List DrawCall :=
      [DrawCall.beginPath, DrawCall.strokeStyle "magenta", DrawCall.lineWidth 2,
        DrawCall.moveTo i0.x i0.y, DrawCall.lineTo i1.x i1.y, DrawCall.stroke,
        DrawCall.lineTo i2.x i2.y, DrawCall.stroke, DrawCall.closePath,
        DrawCall.beginPath, DrawCall.strokeStyle "lime",
        DrawCall.moveTo i3.x i3.y, DrawCall.lineTo i4.x i4.y, DrawCall.stroke,
        DrawCall.closePath]
    pure (curvePart ++ cpPart ++ overlay ++
      (c.interpolationPoints.map Point.draw).flatten)
  else
    pure (curvePart ++ cpPart)

/-- Embedding of one `animate` tick (app.js 486-493): clear the surface,
draw the curve from the current state, and, only if `interpolating` is set,
recompute the markers via `interpolate` (which advances `t` if unpaused).
The `requestAnimationFrame` re-scheduling is outside the model. -/
def animateTick (c : BezierCurve) : Option (List DrawCall × BezierCurve) := do
  let calls ← c.draw
  let c' ← if c.interpolating then interpolate c else pure c
  pure (DrawCall.clearRect :: calls, c')

/-- The user-visible operations on a curve considered by the reachability
claims: a frame recompute, the pause and run commands, and a control-point
move. -/
inductive CurveOp where
  | interp
  | pauseOp
  | runOp
  | moveOp (k : Nat) (x y : ℚ)

/-- Apply one operation to the curve state. -/
def applyOp (c : BezierCurve) : CurveOp → Option BezierCurve
  | CurveOp.interp => interpolate c
  | CurveOp.pauseOp => some c.pause
  | CurveOp.runOp => some c.run
  | CurveOp.moveOp k x y => some (moveControlPoint c k x y)

/-- Apply a sequence of operations to the curve state. -/
def runOps : List CurveOp → BezierCurve → Option BezierCurve
  | [], c => some c
  | op :: ops, c => applyOp c op >>= runOps ops

/-- The point `m` is a convex combination of the four control points, with
the same coefficients for `x` and `y`: it lies in their convex hull. -/
def IsConvexComb4 (m : Point) (p0 p1 p2 p3 : DraggablePoint) : Prop :=
  ∃ a0 a1 a2 a3 : ℚ, 0 ≤ a0 ∧ 0 ≤ a1 ∧ 0 ≤ a2 ∧ 0 ≤ a3 ∧
    a0 + a1 + a2 + a3 = 1 ∧
    m.x = a0 * p0.x + a1 * p1.x + a2 * p2.x + a3 * p3.x ∧
    m.y = a0 * p0.y + a1 * p1.y + a2 * p2.y + a3 * p3.y

/-- The control-point input of the example in spec.md section 8:
P0=(0,0), P1=(0,100), P2=(100,100), P3=(100,0). -/
def sampleInput : List CPInput :=
  [⟨⟨0, 0⟩, "P₀"⟩, ⟨⟨0, 100⟩, "P₁"⟩, ⟨⟨100, 100⟩, "P₂"⟩, ⟨⟨100, 0⟩, "P₃"⟩]

/-- The four control points the constructor builds from `sampleInput`. -/
def sampleP0 : DraggablePoint := ⟨⟨0, 0, 12, Point.defaultColor, "P₀"⟩, false⟩

/-- Second sample control point. -/
def sampleP1 : DraggablePoint := ⟨⟨0, 100, 12, Point.defaultColor, "P₁"⟩, false⟩

/-- Third sample control point. -/
def sampleP2 : DraggablePoint :=
  ⟨⟨100, 100, 12, Point.defaultColor, "P₂"⟩, false⟩

/-- Fourth sample control point. -/
def sampleP3 : DraggablePoint := ⟨⟨100, 0, 12, Point.defaultColor, "P₃"⟩, false⟩

/-- The six markers the constructor builds from `sampleInput`. -/
def sampleM0 : Point := mkMarker 0 0 "Q₀"

/-- Marker Q₁ of the sample curve. -/
def sampleM1 : Point := mkMarker 0 100 "Q₁"

/-- Marker Q₂ of the sample curve. -/
def sampleM2 : Point := mkMarker 100 100 "Q₂"

/-- Marker R₀ of the sample curve. -/
def sampleM3 : Point := mkMarker 0 0 "R₀"

/-- Marker R₁ of the sample curve. -/
def sampleM4 : Point := mkMarker 0 100 "R₁"

/-- Marker B of the sample curve. -/
def sampleM5 : Point := mkMarker 0 0 "B"

/-- The curve constructed from `sampleInput`. -/
def sampleCurve : BezierCurve :=
  { controlPoints := [sampleP0, sampleP1, sampleP2, sampleP3]
    interpolationPoints := [sampleM0, sampleM1, sampleM2, sampleM3, sampleM4,
      sampleM5]
    t := 0
    dragging := false
    hovering := false
    interpolating := false
    paused := false }

/-- A three-entry input list (P3 missing). -/
def threeInput : List CPInput :=
  [⟨⟨0, 0⟩, "P₀"⟩, ⟨⟨0, 100⟩, "P₁"⟩, ⟨⟨100, 100⟩, "P₂"⟩]

/-- A control point whose bounding box overlaps `overlapB`. -/
def overlapA : DraggablePoint := ⟨⟨100, 100, 12, Point.defaultColor, "A"⟩, false⟩

/-- A control point whose bounding box overlaps `overlapA`. -/
def overlapB : DraggablePoint := ⟨⟨110, 100, 12, Point.defaultColor, "B"⟩, false⟩

/-- A curve with two overlapping control points, no drag active. -/
def overlapCurve : BezierCurve :=
  { sampleCurve with controlPoints := [overlapA, overlapB] }

/-- The sample curve frozen (paused) at `t = 1/2`, the spec example. -/
def exC1 : BezierCurve := { sampleCurve with t := 1 / 2, paused := true }

/-- The result of one unpaused `interpolate` call on `sampleCurve`. -/
def c10res : BezierCurve := { sampleCurve with
  interpolationPoints := deCasteljau sampleCurve.t sampleP0 sampleP1 sampleP2
    sampleP3 sampleM0 sampleM1 sampleM2 sampleM3 sampleM4 sampleM5
  t := advanceT sampleCurve.t }

/-- The `t` value lies on the reachable orbit: the invariant used for
the reachability claim. -/
def TInv (c : BezierCurve) : Prop := ∃ k, k < 200 ∧ c.t = gridToQ (tOrbit k)

/-- A sample operation sequence: pause, drag a point, run. -/
def c4ops : List CurveOp :=
  [CurveOp.pauseOp, CurveOp.moveOp 1 50 60, CurveOp.runOp]

/-- The state after `c4ops` on the sample curve. -/
def c4res : BezierCurve :=
  { sampleCurve with
    controlPoints := [sampleP0, sampleP1.move 50 60, sampleP2, sampleP3] }

/-- The sample curve mid-animation with the overlay off. -/
def tickOff : BezierCurve := { sampleCurve with t := 1 / 2 }

/-- The sample curve with the overlay on and paused, markers still at
their construction positions. -/
def tickOn : BezierCurve :=
  { sampleCurve with t := 1 / 2, interpolating := true, paused := true }

/-- The result of a paused `interpolate` call at `t = 0`: every marker
mirrors a control point because all P3 weights vanish at `t = 0`. -/
def c5a : BezierCurve :=
  { sampleCurve with
    paused := true
    interpolationPoints := [mkMarker 0 0 "Q₀", mkMarker 0 100 "Q₁",
      mkMarker 100 100 "Q₂", mkMarker 0 0 "R₀", mkMarker 0 100 "R₁",
      mkMarker 0 0 "B"] }

/-- `c5a` after moving P3 to (200, 200): the markers are identical. -/
def c5b : BezierCurve :=
  { c5a with
    controlPoints := [sampleP0, sampleP1, sampleP2,
      sampleP3.move 200 200] }

/-- The sample curve paused at `t = 1/2`. -/
def exC5 : BezierCurve := { sampleCurve with t := 1 / 2, paused := true }

/-- The draw calls of one tick on `tickOff`. -/
def c9calls : List DrawCall := (BezierCurve.draw tickOff).getD []

set_option maxRecDepth 40000

lemma allBelow_succ_eq (k n : Nat) : allBelow (k + 1) n =
    (decide (n < 2 ^ 60) && allBelow k (advanceGrid n)) := by
  simp [allBelow]

lemma allBelow_add (a b : Nat) : ∀ n, allBelow (a + b) n =
    (allBelow a n && allBelow b (advanceGrid^[a] n)) := by
  induction a with
  | zero => intro n; simp [allBelow]
  | succ a ih =>
    intro n
    have h1 : a + 1 + b = (a + b) + 1 := by omega
    rw [h1, allBelow_succ_eq, ih (advanceGrid n), allBelow_succ_eq,
      Bool.and_assoc, Function.iterate_succ_apply]

lemma allBelow_spec (k : Nat) : ∀ n, allBelow k n = true →
    ∀ j, j < k → advanceGrid^[j] n < 2 ^ 60 := by
  induction k with
  | zero => intro n _ j hj; omega
  | succ k ih =>
    intro n h j hj
    rw [allBelow_succ_eq, Bool.and_eq_true, decide_eq_true_eq] at h
    cases j with
    | zero => exact h.1
    | succ j =>
      rw [Function.iterate_succ_apply]
      exact ih (advanceGrid n) h.2 j (by omega)

lemma advN_chunk1 : advanceGrid^[50] 0 = 288230376151711872 := by decide

lemma advN_chunk2 : advanceGrid^[50] 288230376151711872 = 576460752303423872 := by
  decide

lemma advN_chunk3 : advanceGrid^[50] 576460752303423872 = 864691128455135872 := by
  decide

lemma advN_chunk4 : advanceGrid^[50] 864691128455135872 = 0 := by decide

lemma advN_chunk4' : advanceGrid^[49] 864691128455135872 = 1147156897083813632 := by
  decide

lemma allBelow_chunk1 : allBelow 50 0 = true := by decide

lemma allBelow_chunk2 : allBelow 50 288230376151711872 = true := by decide

lemma allBelow_chunk3 : allBelow 50 576460752303423872 = true := by decide

lemma allBelow_chunk4 : allBelow 50 864691128455135872 = true := by decide

lemma tOrbit_200 : tOrbit 200 = 0 := by
  rw [tOrbit, show (200 : Nat) = 50 + 50 + 50 + 50 from rfl,
    Function.iterate_add_apply, Function.iterate_add_apply,
    Function.iterate_add_apply, advN_chunk1, advN_chunk2, advN_chunk3,
    advN_chunk4]

lemma tOrbit_199 : tOrbit 199 = 1147156897083813632 := by
  rw [tOrbit, show (199 : Nat) = 49 + 50 + 50 + 50 from rfl,
    Function.iterate_add_apply, Function.iterate_add_apply,
    Function.iterate_add_apply, advN_chunk1, advN_chunk2, advN_chunk3,
    advN_chunk4']

lemma allBelow_200 : allBelow 200 0 = true := by
  rw [show (200 : Nat) = 50 + (50 + (50 + 50)) from rfl, allBelow_add,
    allBelow_chunk1, advN_chunk1, allBelow_add, allBelow_chunk2, advN_chunk2,
    allBelow_add, allBelow_chunk3, advN_chunk3, allBelow_chunk4]
  rfl

lemma tOrbit_lt (k : Nat) (hk : k < 200) : tOrbit k < 2 ^ 60 := by
  rw [tOrbit]
  exact allBelow_spec 200 0 allBelow_200 k hk

lemma gridToQ_nonneg (n : Nat) : 0 ≤ gridToQ n := by
  unfold gridToQ; positivity

lemma gridToQ_lt_one (n : Nat) (h : n < 2 ^ 60) : gridToQ n < 1 := by
  unfold gridToQ
  rw [div_lt_one (by positivity)]
  exact_mod_cast h

lemma gridToQ_zero : gridToQ 0 = 0 := by simp [gridToQ]

lemma gridToQ_eq_zero_iff (n : Nat) : gridToQ n = 0 ↔ n = 0 := by
  unfold gridToQ
  rw [div_eq_zero_iff]
  simp

lemma qToGrid_gridToQ (n : Nat) : qToGrid (gridToQ n) = n := by
  unfold qToGrid gridToQ
  rw [div_mul_cancel₀ _ (by positivity : (2 ^ 60 : ℚ) ≠ 0)]
  simp

lemma advanceT_gridToQ (n : Nat) : advanceT (gridToQ n) = gridToQ (advanceGrid n) := by
  unfold advanceT
  rw [qToGrid_gridToQ]

lemma interpolate_wf (c : BezierCurve) (p0 p1 p2 p3 : DraggablePoint)
    (m0 m1 m2 m3 m4 m5 : Point)
    (hc : c.controlPoints = [p0, p1, p2, p3])
    (hm : c.interpolationPoints = [m0, m1, m2, m3, m4, m5]) :
    interpolate c = some { c with
      interpolationPoints := deCasteljau c.t p0 p1 p2 p3 m0 m1 m2 m3 m4 m5
      t := if c.paused then c.t else advanceT c.t } := by
  rcases c with ⟨cps, ips, t, dr, ho, ipg, pa⟩
  dsimp only at hc hm ⊢
  subst hc
  subst hm
  rfl

lemma interpolate_frame (c c' : BezierCurve) (h : interpolate c = some c') :
    c'.controlPoints = c.controlPoints ∧ c'.dragging = c.dragging ∧
    c'.hovering = c.hovering ∧ c'.interpolating = c.interpolating ∧
    c'.paused = c.paused ∧
    c'.t = if c.paused then c.t else advanceT c.t := by
  simp only [interpolate, bind, Option.bind_eq_some, Option.pure_def,
    Option.some.injEq] at h
  obtain ⟨i1, h1, i2, h2, i3, h3, i4, h4, i5, h5, i6, h6, rfl⟩ := h
  simp

lemma mkBezierCurve_fields (input : List CPInput) (c : BezierCurve)
    (h : mkBezierCurve input = some c) :
    c.controlPoints = loadControlPoints input ∧ c.t = 0 ∧
    c.dragging = false ∧ c.hovering = false ∧ c.interpolating = false ∧
    c.paused = false ∧ c.interpolationPoints.length = 6 := by
  simp only [mkBezierCurve, bind, Option.bind_eq_some, Option.pure_def,
    Option.some.injEq] at h
  obtain ⟨a, ha, b, hb, d, hd, e, he, rfl⟩ := h
  simp

lemma list_len4 {α : Type _} (l : List α) (h : l.length = 4) :
    ∃ a b c d, l = [a, b, c, d] := by
  rcases l with _ | ⟨a, tl⟩
  · simp at h
  · have h3 : tl.length = 3 := by simpa using h
    obtain ⟨b, c, d, rfl⟩ := List.length_eq_three.mp h3
    exact ⟨a, b, c, d, rfl⟩

lemma list_len6 {α : Type _} (l : List α) (h : l.length = 6) :
    ∃ a b c d e f, l = [a, b, c, d, e, f] := by
  rcases l with _ | ⟨a, _ | ⟨b, _ | ⟨c, tl⟩⟩⟩
  · simp at h
  · simp at h
  · simp at h
  · have h3 : tl.length = 3 := by simpa using h
    obtain ⟨d, e, f, rfl⟩ := List.length_eq_three.mp h3
    exact ⟨a, b, c, d, e, f, rfl⟩

lemma interpolateN_zero (c : BezierCurve) : interpolateN 0 c = some c := by
  simp [interpolateN]

lemma interpolateN_succ (n : Nat) (c : BezierCurve) :
    interpolateN (n + 1) c = interpolate c >>= interpolateN n := by
  simp [interpolateN]

lemma interpolate_succeeds (c : BezierCurve)
    (h4 : c.controlPoints.length = 4) (h6 : c.interpolationPoints.length = 6) :
    ∃ c', interpolate c = some c' ∧ c'.controlPoints = c.controlPoints ∧
      c'.interpolationPoints.length = 6 ∧ c'.paused = c.paused ∧
      c'.t = (if c.paused then c.t else advanceT c.t) := by
  obtain ⟨p0, p1, p2, p3, hc⟩ := list_len4 _ h4
  obtain ⟨m0, m1, m2, m3, m4, m5, hm⟩ := list_len6 _ h6
  refine ⟨_, interpolate_wf c p0 p1 p2 p3 m0 m1 m2 m3 m4 m5 hc hm,
    by simp [hc], by simp [deCasteljau], by simp, by simp⟩

lemma interpolateN_run (n : Nat) : ∀ (c : BezierCurve) (m : Nat),
    c.controlPoints.length = 4 → c.interpolationPoints.length = 6 →
    c.paused = false → c.t = gridToQ m →
    ∃ cn, interpolateN n c = some cn ∧ cn.controlPoints.length = 4 ∧
      cn.interpolationPoints.length = 6 ∧ cn.paused = false ∧
      cn.t = gridToQ (advanceGrid^[n] m) := by
  induction n with
  | zero =>
    intro c m h4 h6 hp ht
    exact ⟨c, interpolateN_zero c, h4, h6, hp, by simpa using ht⟩
  | succ n ih =>
    intro c m h4 h6 hp ht
    obtain ⟨c1, hc1, hcp, hip, hpa, ht1⟩ := interpolate_succeeds c h4 h6
    rw [hp, if_neg (by simp)] at ht1
    have ht1' : c1.t = gridToQ (advanceGrid m) := by
      rw [ht1, ht, advanceT_gridToQ]
    have h4' : c1.controlPoints.length = 4 := by rw [hcp]; exact h4
    have hp1 : c1.paused = false := by rw [hpa]; exact hp
    obtain ⟨cn, hcn, a, b, d, e⟩ := ih c1 (advanceGrid m) h4' hip hp1 ht1'
    refine ⟨cn, ?_, a, b, d, ?_⟩
    · rw [interpolateN_succ, hc1]
      simpa using hcn
    · rw [e, Function.iterate_succ_apply]

lemma interpolateN_paused (n : Nat) : ∀ (c : BezierCurve),
    c.controlPoints.length = 4 → c.interpolationPoints.length = 6 →
    c.paused = true →
    ∃ cn, interpolateN n c = some cn ∧ cn.controlPoints = c.controlPoints ∧
      cn.interpolationPoints.length = 6 ∧ cn.paused = true ∧ cn.t = c.t := by
  induction n with
  | zero =>
    intro c h4 h6 hp
    exact ⟨c, interpolateN_zero c, rfl, h6, hp, rfl⟩
  | succ n ih =>
    intro c h4 h6 hp
    obtain ⟨c1, hc1, hcp, hip, hpa, ht1⟩ := interpolate_succeeds c h4 h6
    rw [hp, if_pos rfl] at ht1
    have h4' : c1.controlPoints.length = 4 := by rw [hcp]; exact h4
    have hp1 : c1.paused = true := by rw [hpa]; exact hp
    obtain ⟨cn, hcn, a, b, d, e⟩ := ih c1 h4' hip hp1
    refine ⟨cn, ?_, ?_, b, d, ?_⟩
    · rw [interpolateN_succ, hc1]
      simpa using hcn
    · rw [a, hcp]
    · rw [e, ht1]

lemma pointerdownScan_flag_true (x y : ℚ) : ∀ (l : List DraggablePoint),
    pointerdownScan x y l true = (l, true) := by
  intro l
  induction l with
  | nil => rfl
  | cons p rest ih => simp [pointerdownScan, ih]

lemma pointerdownScan_first (x y : ℚ) (p : DraggablePoint)
    (suf : List DraggablePoint) (hp : p.contains x y = true) :
    ∀ pre, (∀ q ∈ pre, q.contains x y = false) →
    pointerdownScan x y (pre ++ p :: suf) false = (pre ++ p.drag :: suf, true) := by
  intro pre
  induction pre with
  | nil =>
    intro _
    simp [pointerdownScan, hp, pointerdownScan_flag_true]
  | cons q rest ih =>
    intro hq
    have hqf : q.contains x y = false := hq q (by simp)
    have := ih (fun r hr => hq r (by simp [hr]))
    simp [pointerdownScan, hqf, this]

/-- C7: `contains(x, y)` is true exactly when the query lies in the
axis-aligned bounding box `[cx - r, cx + r] × [cy - r, cy + r]` of the
point — true at the box edges and false just outside; in particular a
point at (100, 100) with radius 12 contains (112, 100) and not (113, 100). -/
theorem contains_iff_bbox (p : Point) (x y : ℚ) :
    (p.contains x y = true ↔
      p.x - p.radius ≤ x ∧ x ≤ p.x + p.radius ∧
      p.y - p.radius ≤ y ∧ y ≤ p.y + p.radius) ∧
    Point.contains ⟨100, 100, 12, Point.defaultColor, "P₁"⟩ 112 100 = true ∧
    Point.contains ⟨100, 100, 12, Point.defaultColor, "P₁"⟩ 113 100 = false := by
  refine ⟨?_, by norm_num [Point.contains], by norm_num [Point.contains]⟩
  simp [Point.contains, and_assoc]

/-- C6: a pointer-down at a position contained in the bounding boxes of
two or more control points, with no drag active, puts exactly one control
point — the first in iteration order whose `contains` is true — into
Dragging and raises the curve-level `dragging` flag; and while that flag
is true, a pointer-down is a no-op, so no other point can enter Dragging. -/
theorem pointerdown_drag_exclusive (c : BezierCurve) (x y : ℚ)
    (pre suf : List DraggablePoint) (p : DraggablePoint)
    (hc : c.controlPoints = pre ++ p :: suf)
    (hpre : ∀ q ∈ pre, q.contains x y = false)
    (hp : p.contains x y = true)
    (hsuf : ∃ q ∈ suf, q.contains x y = true)
    (hd : c.dragging = false) :
    (pointerdown x y c).controlPoints = pre ++ p.drag :: suf ∧
    (pointerdown x y c).dragging = true ∧
    ∀ c', c'.dragging = true → pointerdown x y c' = c' := by
  have hscan := pointerdownScan_first x y p suf hp pre hpre
  refine ⟨?_, ?_, ?_⟩
  · simp [pointerdown, hc, hd, hscan]
  · simp [pointerdown, hc, hd, hscan]
  · intro c' hd'
    rcases c' with ⟨cps, ips, t, dr, ho, ipg, pa⟩
    simp only at hd'
    subst hd'
    simp [pointerdown, pointerdownScan_flag_true]

/-- Witness for C6: the pointer-down at (105, 100) lies in both boxes of
`overlapA` and `overlapB`; only `overlapA` starts dragging. -/
theorem pointerdown_drag_exclusive_witness :
    overlapCurve.controlPoints = [] ++ overlapA :: [overlapB] ∧
    (∀ q ∈ ([] : List DraggablePoint), q.contains 105 100 = false) ∧
    overlapA.contains 105 100 = true ∧
    (∃ q ∈ [overlapB], q.contains 105 100 = true) ∧
    overlapCurve.dragging = false ∧
    ((pointerdown 105 100 overlapCurve).controlPoints =
      [] ++ overlapA.drag :: [overlapB] ∧
      (pointerdown 105 100 overlapCurve).dragging = true ∧
      ∀ c', c'.dragging = true → pointerdown 105 100 c' = c') :=
  ⟨rfl, by simp, by norm_num [overlapA, Point.contains],
    ⟨overlapB, by simp, by norm_num [overlapB, Point.contains]⟩, rfl,
    pointerdown_drag_exclusive overlapCurve 105 100 [] [overlapB] overlapA rfl
      (by simp) (by norm_num [overlapA, Point.contains])
      ⟨overlapB, by simp, by norm_num [overlapB, Point.contains]⟩ rfl⟩

/-- Counterexample to C8: a 3-entry input does not make construction
fail — the constructor performs no validation and succeeds. -/
theorem mkBezierCurve_three_succeeds :
    threeInput.length ≠ 4 ∧ (mkBezierCurve threeInput).isSome = true := by
  constructor
  · decide
  · rfl

/-- C8 (amended): construction never fails with a validation error: it
succeeds exactly when the input has at least 3 entries (marker
initialisation reads control points 0-2; a missing index is the only
failure), and on the constructed curve `interpolate` succeeds exactly when
the input had at least 4 entries (it reads control point 3), so the curve
operations are only fully defined for at least 4 control points. -/
theorem mkBezierCurve_length_behavior (input : List CPInput) :
    ((mkBezierCurve input).isSome ↔ 3 ≤ input.length) ∧
    ∀ c, mkBezierCurve input = some c →
      ((interpolate c).isSome ↔ 4 ≤ input.length) := by
  rcases input with _ | ⟨a, _ | ⟨b, _ | ⟨d, _ | ⟨e, rest⟩⟩⟩⟩
  · constructor
    · simp [mkBezierCurve, loadControlPoints]
    · intro c h
      simp [mkBezierCurve, loadControlPoints] at h
  · constructor
    · simp [mkBezierCurve, loadControlPoints]
    · intro c h
      simp [mkBezierCurve, loadControlPoints] at h
  · constructor
    · simp [mkBezierCurve, loadControlPoints]
    · intro c h
      simp [mkBezierCurve, loadControlPoints] at h
  · constructor
    · simp [mkBezierCurve, loadControlPoints]
    · intro c h
      simp [mkBezierCurve, loadControlPoints] at h
      subst h
      simp [interpolate, updateQ, updateR, updateB]
  · constructor
    · simp [mkBezierCurve, loadControlPoints]
    · intro c h
      simp [mkBezierCurve, loadControlPoints] at h
      subst h
      simp [interpolate, updateQ, updateR, updateB]

/-- Witness for C8 at the 4-point sample input. -/
theorem mkBezierCurve_length_behavior_witness :
    mkBezierCurve sampleInput = some sampleCurve ∧
    ((mkBezierCurve sampleInput).isSome ↔ 3 ≤ sampleInput.length) ∧
    ((interpolate sampleCurve).isSome ↔ 4 ≤ sampleInput.length) :=
  ⟨by simp [mkBezierCurve, sampleInput, loadControlPoints, sampleCurve,
      sampleP0, sampleP1, sampleP2, sampleP3, sampleM0, sampleM1, sampleM2,
      sampleM3, sampleM4, sampleM5, mkMarker],
    (mkBezierCurve_length_behavior sampleInput).1,
    (mkBezierCurve_length_behavior sampleInput).2 sampleCurve
      (by simp [mkBezierCurve, sampleInput, loadControlPoints, sampleCurve,
        sampleP0, sampleP1, sampleP2, sampleP3, sampleM0, sampleM1, sampleM2,
        sampleM3, sampleM4, sampleM5, mkMarker])⟩

/-- C1: on a curve with 4 control points and 6 markers, at every `t`,
`interpolate` sets the six markers by De Casteljau's construction at the
current `t`: `Q i = lerp (P i) (P (i+1))`, `R i = lerp (Q i) (Q (i+1))`,
`B = lerp R0 R1`, with `lerp t a b = (1 - t) * a + t * b` applied
independently to `x` and `y` (the `deCasteljau` list). -/
theorem interpolate_sets_deCasteljau (c : BezierCurve)
    (p0 p1 p2 p3 : DraggablePoint) (m0 m1 m2 m3 m4 m5 : Point)
    (hc : c.controlPoints = [p0, p1, p2, p3])
    (hm : c.interpolationPoints = [m0, m1, m2, m3, m4, m5]) :
    interpolate c = some { c with
      interpolationPoints := deCasteljau c.t p0 p1 p2 p3 m0 m1 m2 m3 m4 m5
      t := if c.paused then c.t else advanceT c.t } :=
  interpolate_wf c p0 p1 p2 p3 m0 m1 m2 m3 m4 m5 hc hm

/-- Witness for C1 at the spec example: P0=(0,0), P1=(0,100),
P2=(100,100), P3=(100,0), t = 1/2 gives Q0=(0,50), Q1=(50,100),
Q2=(100,50), R0=(25,75), R1=(75,75), B=(50,75). -/
theorem interpolate_sets_deCasteljau_witness :
    exC1.controlPoints = [sampleP0, sampleP1, sampleP2, sampleP3] ∧
    exC1.interpolationPoints =
      [sampleM0, sampleM1, sampleM2, sampleM3, sampleM4, sampleM5] ∧
    interpolate exC1 = some { exC1 with
      interpolationPoints := deCasteljau exC1.t sampleP0 sampleP1 sampleP2
        sampleP3 sampleM0 sampleM1 sampleM2 sampleM3 sampleM4 sampleM5
      t := if exC1.paused then exC1.t else advanceT exC1.t } ∧
    deCasteljau exC1.t sampleP0 sampleP1 sampleP2 sampleP3 sampleM0 sampleM1
      sampleM2 sampleM3 sampleM4 sampleM5 =
      [{ sampleM0 with x := 0, y := 50 }, { sampleM1 with x := 50, y := 100 },
        { sampleM2 with x := 100, y := 50 }, { sampleM3 with x := 25, y := 75 },
        { sampleM4 with x := 75, y := 75 },
        { sampleM5 with x := 50, y := 75 }] :=
  ⟨rfl, rfl,
    interpolate_sets_deCasteljau exC1 sampleP0 sampleP1 sampleP2 sampleP3
      sampleM0 sampleM1 sampleM2 sampleM3 sampleM4 sampleM5 rfl rfl,
    by norm_num [deCasteljau, lerp, exC1, sampleCurve, sampleP0, sampleP1,
      sampleP2, sampleP3, sampleM0, sampleM1, sampleM2, sampleM3, sampleM4,
      sampleM5, mkMarker]⟩

/-- C10: `interpolate` mutates only the markers' `x`/`y` coordinates and,
when not paused, `t`: the control points (positions, colors, dragging
flags), the markers' radius, color and label, and the curve-level
`dragging`, `hovering`, `interpolating` and `paused` flags are all
unchanged, and when paused `t` is unchanged too. -/
theorem interpolate_mutates_only_markers (c : BezierCurve)
    (p0 p1 p2 p3 : DraggablePoint) (m0 m1 m2 m3 m4 m5 : Point)
    (hc : c.controlPoints = [p0, p1, p2, p3])
    (hm : c.interpolationPoints = [m0, m1, m2, m3, m4, m5])
    (c' : BezierCurve) (h : interpolate c = some c') :
    c'.controlPoints = c.controlPoints ∧ c'.dragging = c.dragging ∧
    c'.hovering = c.hovering ∧ c'.interpolating = c.interpolating ∧
    c'.paused = c.paused ∧
    c'.interpolationPoints.map Point.radius =
      c.interpolationPoints.map Point.radius ∧
    c'.interpolationPoints.map Point.color =
      c.interpolationPoints.map Point.color ∧
    c'.interpolationPoints.map Point.label =
      c.interpolationPoints.map Point.label ∧
    (c.paused = true → c'.t = c.t) := by
  rw [interpolate_wf c p0 p1 p2 p3 m0 m1 m2 m3 m4 m5 hc hm,
    Option.some_inj] at h
  subst h
  refine ⟨by simp, by simp, by simp, by simp, by simp, ?_, ?_, ?_, ?_⟩
  · simp [deCasteljau, hm]
  · simp [deCasteljau, hm]
  · simp [deCasteljau, hm]
  · intro hp
    simp [hp]

/-- Witness for C10: one unpaused `interpolate` call on the sample curve. -/
theorem interpolate_mutates_only_markers_witness :
    sampleCurve.controlPoints = [sampleP0, sampleP1, sampleP2, sampleP3] ∧
    sampleCurve.interpolationPoints =
      [sampleM0, sampleM1, sampleM2, sampleM3, sampleM4, sampleM5] ∧
    interpolate sampleCurve = some c10res ∧
    (c10res.controlPoints = sampleCurve.controlPoints ∧
      c10res.dragging = sampleCurve.dragging ∧
      c10res.hovering = sampleCurve.hovering ∧
      c10res.interpolating = sampleCurve.interpolating ∧
      c10res.paused = sampleCurve.paused ∧
      c10res.interpolationPoints.map Point.radius =
        sampleCurve.interpolationPoints.map Point.radius ∧
      c10res.interpolationPoints.map Point.color =
        sampleCurve.interpolationPoints.map Point.color ∧
      c10res.interpolationPoints.map Point.label =
        sampleCurve.interpolationPoints.map Point.label ∧
      (sampleCurve.paused = true → c10res.t = sampleCurve.t)) := by
  have hmk : interpolate sampleCurve = some c10res := by
    rw [interpolate_wf sampleCurve sampleP0 sampleP1 sampleP2 sampleP3
      sampleM0 sampleM1 sampleM2 sampleM3 sampleM4 sampleM5 rfl rfl]
    rfl
  exact ⟨rfl, rfl, hmk,
    interpolate_mutates_only_markers sampleCurve sampleP0 sampleP1 sampleP2
      sampleP3 sampleM0 sampleM1 sampleM2 sampleM3 sampleM4 sampleM5 rfl rfl
      c10res hmk⟩

/-- C2: for `t` in `[0, 1)` and any control-point configuration, each of
the six markers computed by `interpolate` is a convex combination of the
four control points, hence lies in their convex hull. -/
theorem interpolate_markers_in_hull (c : BezierCurve)
    (p0 p1 p2 p3 : DraggablePoint) (m0 m1 m2 m3 m4 m5 : Point)
    (hc : c.controlPoints = [p0, p1, p2, p3])
    (hm : c.interpolationPoints = [m0, m1, m2, m3, m4, m5])
    (h0 : 0 ≤ c.t) (h1 : c.t < 1) :
    ∀ c', interpolate c = some c' →
      ∀ m ∈ c'.interpolationPoints, IsConvexComb4 m p0 p1 p2 p3 := by
  intro c' hc'
  rw [interpolate_wf c p0 p1 p2 p3 m0 m1 m2 m3 m4 m5 hc hm,
    Option.some_inj] at hc'
  subst hc'
  have ht1 : (0 : ℚ) ≤ 1 - c.t := by linarith
  intro m hm'
  simp only [deCasteljau, BezierCurve.mk.injEq, List.mem_cons,
    List.not_mem_nil, or_false] at hm'
  rcases hm' with rfl | rfl | rfl | rfl | rfl | rfl
  · exact ⟨1 - c.t, c.t, 0, 0, ht1, h0, le_refl 0, le_refl 0, by ring,
      by simp [lerp]; try ring, by simp [lerp]; try ring⟩
  · exact ⟨0, 1 - c.t, c.t, 0, le_refl 0, ht1, h0, le_refl 0, by ring,
      by simp [lerp]; try ring, by simp [lerp]; try ring⟩
  · exact ⟨0, 0, 1 - c.t, c.t, le_refl 0, le_refl 0, ht1, h0, by ring,
      by simp [lerp]; try ring, by simp [lerp]; try ring⟩
  · exact ⟨(1 - c.t) ^ 2, 2 * c.t * (1 - c.t), c.t ^ 2, 0, sq_nonneg _,
      mul_nonneg (by linarith) ht1, sq_nonneg _, le_refl 0, by ring,
      by simp [lerp]; try ring, by simp [lerp]; try ring⟩
  · exact ⟨0, (1 - c.t) ^ 2, 2 * c.t * (1 - c.t), c.t ^ 2, le_refl 0,
      sq_nonneg _, mul_nonneg (by linarith) ht1, sq_nonneg _, by ring,
      by simp [lerp]; try ring, by simp [lerp]; try ring⟩
  · exact ⟨(1 - c.t) ^ 3, 3 * c.t * (1 - c.t) ^ 2, 3 * c.t ^ 2 * (1 - c.t),
      c.t ^ 3, pow_nonneg ht1 3,
      mul_nonneg (by linarith) (sq_nonneg _),
      mul_nonneg (by positivity) ht1, pow_nonneg h0 3, by ring,
      by simp [lerp]; try ring, by simp [lerp]; try ring⟩

/-- Witness for C2 at the sample curve frozen at `t = 1/2`. -/
theorem interpolate_markers_in_hull_witness :
    exC1.controlPoints = [sampleP0, sampleP1, sampleP2, sampleP3] ∧
    exC1.interpolationPoints =
      [sampleM0, sampleM1, sampleM2, sampleM3, sampleM4, sampleM5] ∧
    0 ≤ exC1.t ∧ exC1.t < 1 ∧
    ∀ c', interpolate exC1 = some c' →
      ∀ m ∈ c'.interpolationPoints,
        IsConvexComb4 m sampleP0 sampleP1 sampleP2 sampleP3 :=
  ⟨rfl, rfl, by norm_num [exC1, sampleCurve], by norm_num [exC1, sampleCurve],
    interpolate_markers_in_hull exC1 sampleP0 sampleP1 sampleP2 sampleP3
      sampleM0 sampleM1 sampleM2 sampleM3 sampleM4 sampleM5 rfl rfl
      (by norm_num [exC1, sampleCurve]) (by norm_num [exC1, sampleCurve])⟩

/-- C3: starting from `t = 0` unpaused, after exactly 200 `interpolate`
calls (each adding the IEEE double `1/200`), `t` is exactly `0` again — a
hard reset, not `t - 1` or a small residue: after 199 calls `t` is still a
positive value below 1, and the 200th call makes the accumulated double
exceed 1 and resets it to exactly 0. -/
theorem t_wraps_to_zero_after_200 (c : BezierCurve)
    (h4 : c.controlPoints.length = 4) (h6 : c.interpolationPoints.length = 6)
    (ht : c.t = 0) (hp : c.paused = false) :
    ∃ c199 c200, interpolateN 199 c = some c199 ∧
      interpolateN 200 c = some c200 ∧ 0 < c199.t ∧ c199.t < 1 ∧
      c200.t = 0 := by
  have ht' : c.t = gridToQ 0 := by rw [ht, gridToQ_zero]
  obtain ⟨c199, h199, _, _, _, e199⟩ := interpolateN_run 199 c 0 h4 h6 hp ht'
  obtain ⟨c200, h200, _, _, _, e200⟩ := interpolateN_run 200 c 0 h4 h6 hp ht'
  have horb199 : advanceGrid^[199] 0 = 1147156897083813632 := tOrbit_199
  have horb200 : advanceGrid^[200] 0 = 0 := tOrbit_200
  refine ⟨c199, c200, h199, h200, ?_, ?_, ?_⟩
  · rw [e199, horb199]
    norm_num [gridToQ]
  · rw [e199, horb199]
    exact gridToQ_lt_one _ (by norm_num)
  · rw [e200, horb200, gridToQ_zero]

/-- Witness for C3 on the freshly constructed sample curve. -/
theorem t_wraps_to_zero_after_200_witness :
    sampleCurve.controlPoints.length = 4 ∧
    sampleCurve.interpolationPoints.length = 6 ∧
    sampleCurve.t = 0 ∧ sampleCurve.paused = false ∧
    (∃ c199 c200, interpolateN 199 sampleCurve = some c199 ∧
      interpolateN 200 sampleCurve = some c200 ∧ 0 < c199.t ∧ c199.t < 1 ∧
      c200.t = 0) :=
  ⟨rfl, rfl, rfl, rfl,
    t_wraps_to_zero_after_200 sampleCurve rfl rfl rfl rfl⟩

lemma tOrbit_succ (k : Nat) : tOrbit (k + 1) = advanceGrid (tOrbit k) := by
  rw [tOrbit, tOrbit, Function.iterate_succ_apply']

lemma TInv_interpolate (c c' : BezierCurve) (h : TInv c)
    (h' : interpolate c = some c') : TInv c' := by
  obtain ⟨k, hk, ht⟩ := h
  have hfr := (interpolate_frame c c' h').2.2.2.2.2
  by_cases hp : c.paused
  · exact ⟨k, hk, by rw [hfr, if_pos hp, ht]⟩
  · have hstep : c'.t = gridToQ (tOrbit (k + 1)) := by
      rw [hfr, if_neg hp, ht, advanceT_gridToQ, tOrbit_succ]
    by_cases hk2 : k + 1 < 200
    · exact ⟨k + 1, hk2, hstep⟩
    · have h200 : k + 1 = 200 := by omega
      refine ⟨0, by omega, ?_⟩
      rw [hstep, h200, tOrbit_200]
      simp [tOrbit]

lemma pause_t (c : BezierCurve) : c.pause.t = c.t := rfl

lemma run_t (c : BezierCurve) : c.run.t = c.t := rfl

lemma moveControlPoint_t (c : BezierCurve) (k : Nat) (x y : ℚ) :
    (moveControlPoint c k x y).t = c.t := by
  unfold moveControlPoint
  cases h : c.controlPoints[k]? <;> simp

lemma TInv_applyOp (c c' : BezierCurve) (op : CurveOp) (h : TInv c)
    (h' : applyOp c op = some c') : TInv c' := by
  cases op with
  | interp => exact TInv_interpolate c c' h (by simpa [applyOp] using h')
  | pauseOp =>
    obtain ⟨k, hk, ht⟩ := h
    simp only [applyOp, Option.some.injEq] at h'
    exact ⟨k, hk, by rw [← h', pause_t, ht]⟩
  | runOp =>
    obtain ⟨k, hk, ht⟩ := h
    simp only [applyOp, Option.some.injEq] at h'
    exact ⟨k, hk, by rw [← h', run_t, ht]⟩
  | moveOp j x y =>
    obtain ⟨k, hk, ht⟩ := h
    simp only [applyOp, Option.some.injEq] at h'
    exact ⟨k, hk, by rw [← h', moveControlPoint_t, ht]⟩

lemma TInv_runOps (ops : List CurveOp) : ∀ (c c' : BezierCurve), TInv c →
    runOps ops c = some c' → TInv c' := by
  induction ops with
  | nil =>
    intro c c' h h'
    simp only [runOps, Option.some.injEq] at h'
    rwa [← h']
  | cons op rest ih =>
    intro c c' h h'
    rw [show runOps (op :: rest) c = applyOp c op >>= runOps rest from by
      simp [runOps]] at h'
    simp only [bind, Option.bind_eq_some] at h'
    obtain ⟨cmid, hmid, hrest⟩ := h'
    exact ih cmid c' (TInv_applyOp c cmid op h hmid) hrest

/-- C4: in every state reachable from construction by any sequence of
`interpolate`, `pause`, `run` and control-point moves, the parameter
satisfies `0 ≤ t < 1`: the advance wraps `t` to 0 whenever it would leave
the interval. -/
theorem t_in_unit_interval (input : List CPInput) (ops : List CurveOp)
    (c0 c : BezierCurve) (h0 : mkBezierCurve input = some c0)
    (hr : runOps ops c0 = some c) : 0 ≤ c.t ∧ c.t < 1 := by
  have ht0 : c0.t = 0 := (mkBezierCurve_fields input c0 h0).2.1
  have hinv0 : TInv c0 := ⟨0, by omega, by rw [ht0]; simp [tOrbit, gridToQ]⟩
  obtain ⟨k, hk, ht⟩ := TInv_runOps ops c0 c hinv0 hr
  rw [ht]
  exact ⟨gridToQ_nonneg _, gridToQ_lt_one _ (tOrbit_lt k hk)⟩

/-- Witness for C4: a pause, a control-point move and a run on the sample
curve. -/
theorem t_in_unit_interval_witness :
    mkBezierCurve sampleInput = some sampleCurve ∧
    runOps c4ops sampleCurve = some c4res ∧
    0 ≤ c4res.t ∧ c4res.t < 1 := by
  have h1 : mkBezierCurve sampleInput = some sampleCurve := by
    simp [mkBezierCurve, sampleInput, loadControlPoints, sampleCurve,
      sampleP0, sampleP1, sampleP2, sampleP3, sampleM0, sampleM1, sampleM2,
      sampleM3, sampleM4, sampleM5, mkMarker]
  have h2 : runOps c4ops sampleCurve = some c4res := by
    simp [c4ops, runOps, applyOp, BezierCurve.pause, BezierCurve.run,
      moveControlPoint, sampleCurve, c4res]
  exact ⟨h1, h2, (t_in_unit_interval sampleInput c4ops sampleCurve c4res
    h1 h2).1, (t_in_unit_interval sampleInput c4ops sampleCurve c4res
    h1 h2).2⟩

/-- C9 (amended): each animation tick performs, in order: clear the
surface, draw the curve from the state as of the start of the tick, and
then — only if the `interpolating` flag is true — recompute the six
markers via `interpolate` (advancing `t` by 1/200 if not paused).
Recomputation is conditional on `interpolating` and follows that tick's
draw rather than preceding it. -/
theorem animateTick_draw_then_recompute (c : BezierCurve)
    (r : List DrawCall × BezierCurve) (h : animateTick c = some r) :
    (∃ calls, BezierCurve.draw c = some calls ∧
      r.1 = DrawCall.clearRect :: calls) ∧
    (c.interpolating = true → interpolate c = some r.2) ∧
    (c.interpolating = false → r.2 = c) := by
  cases hi : c.interpolating with
  | false =>
    simp only [animateTick, bind, hi, Bool.false_eq_true, if_false,
      Option.bind_eq_some, Option.pure_def, Option.some.injEq] at h
    obtain ⟨calls, hcalls, c2, hc2, hr⟩ := h
    subst hc2
    subst hr
    refine ⟨⟨calls, hcalls, rfl⟩, ?_, fun _ => rfl⟩
    intro hcontra
    exact Bool.noConfusion hcontra
  | true =>
    simp only [animateTick, bind, hi, if_true, Option.bind_eq_some,
      Option.pure_def, Option.some.injEq] at h
    obtain ⟨calls, hcalls, c2, hc2, hr⟩ := h
    subst hr
    refine ⟨⟨calls, hcalls, rfl⟩, fun _ => hc2, ?_⟩
    intro hcontra
    exact Bool.noConfusion hcontra

/-- Counterexample to C9: with the overlay off, a tick leaves the state
untouched although a recompute would have changed it — so marker
recomputation does not happen on every tick; and with the overlay on, the
tick's draw output is computed from the entry state, before any
recomputation. -/
theorem animate_recompute_conditional_and_after_draw :
    tickOff.interpolating = false ∧ tickOff.paused = false ∧
    (animateTick tickOff).map Prod.snd = some tickOff ∧
    interpolate tickOff ≠ some tickOff ∧
    tickOn.interpolating = true ∧
    (animateTick tickOn).map Prod.fst =
      (BezierCurve.draw tickOn).map (fun l => DrawCall.clearRect :: l) := by
  refine ⟨rfl, rfl, ?_, ?_, rfl, ?_⟩
  · simp [animateTick, BezierCurve.draw, tickOff, sampleCurve, sampleP0,
      sampleP1, sampleP2, sampleP3, Point.draw]
  · intro h
    rw [interpolate_wf tickOff sampleP0 sampleP1 sampleP2 sampleP3 sampleM0
      sampleM1 sampleM2 sampleM3 sampleM4 sampleM5 rfl rfl,
      Option.some_inj] at h
    have h2 := congrArg BezierCurve.interpolationPoints h
    norm_num [deCasteljau, tickOff, sampleCurve, lerp, sampleP0, sampleP1,
      sampleP2, sampleP3, sampleM0, sampleM1, sampleM2, sampleM3, sampleM4,
      sampleM5, mkMarker] at h2
  · have hwf := interpolate_wf tickOn sampleP0 sampleP1 sampleP2 sampleP3
      sampleM0 sampleM1 sampleM2 sampleM3 sampleM4 sampleM5 rfl rfl
    simp [tickOn, sampleCurve, sampleP0, sampleP1, sampleP2, sampleP3] at hwf
    simp [animateTick, hwf, BezierCurve.draw, tickOn, sampleCurve, sampleP0,
      sampleP1, sampleP2, sampleP3, Point.draw]

lemma interpolate_wf_paused (c : BezierCurve) (p0 p1 p2 p3 : DraggablePoint)
    (m0 m1 m2 m3 m4 m5 : Point)
    (hc : c.controlPoints = [p0, p1, p2, p3])
    (hm : c.interpolationPoints = [m0, m1, m2, m3, m4, m5])
    (hp : c.paused = true) :
    interpolate c = some { c with
      interpolationPoints := deCasteljau c.t p0 p1 p2 p3 m0 m1 m2 m3 m4
        m5 } := by
  rw [interpolate_wf c p0 p1 p2 p3 m0 m1 m2 m3 m4 m5 hc hm, hp]
  simp

lemma lerp_left_cancel (t a b a' : ℚ) (ht : t < 1)
    (h : lerp t a b = lerp t a' b) : a = a' := by
  unfold lerp at h
  have h1 : (1 - t) ≠ 0 := sub_ne_zero.mpr (ne_of_lt ht).symm
  have h2 : (1 - t) * a = (1 - t) * a' := by linarith
  exact mul_left_cancel₀ h1 h2

lemma lerp_right_cancel (t a b b' : ℚ) (ht : t ≠ 0)
    (h : lerp t a b = lerp t a b') : b = b' := by
  unfold lerp at h
  have h2 : t * b = t * b' := by linarith
  exact mul_left_cancel₀ ht h2

lemma deCasteljau_stable (t : ℚ) (p0 p1 p2 p3 : DraggablePoint)
    (m0 m1 m2 m3 m4 m5 n0 n1 n2 n3 n4 n5 : Point)
    (h : deCasteljau t p0 p1 p2 p3 m0 m1 m2 m3 m4 m5 =
      [n0, n1, n2, n3, n4, n5]) :
    deCasteljau t p0 p1 p2 p3 n0 n1 n2 n3 n4 n5 =
      [n0, n1, n2, n3, n4, n5] := by
  simp only [deCasteljau, List.cons.injEq, and_true] at h
  obtain ⟨h0, h1, h2, h3, h4, h5⟩ := h
  subst h0
  subst h1
  subst h2
  subst h3
  subst h4
  subst h5
  simp [deCasteljau]

lemma deCasteljau_length (t : ℚ) (p0 p1 p2 p3 : DraggablePoint)
    (m0 m1 m2 m3 m4 m5 : Point) :
    (deCasteljau t p0 p1 p2 p3 m0 m1 m2 m3 m4 m5).length = 6 := by
  simp [deCasteljau]

/-- C5 (amended): while paused, any number of `interpolate` calls leaves
`t` unchanged; with control points unchanged, the markers are unchanged
after the first such call; and moving control point `k` to a different
position between paused calls keeps `t` frozen and changes the markers,
except when the moved point has zero weight at the frozen `t` — which
happens exactly for P3 at `t = 0` (hypothesis `k = 3 → t ≠ 0`). -/
theorem paused_interpolate_behavior (c : BezierCurve)
    (p0 p1 p2 p3 : DraggablePoint) (m0 m1 m2 m3 m4 m5 : Point)
    (hc : c.controlPoints = [p0, p1, p2, p3])
    (hm : c.interpolationPoints = [m0, m1, m2, m3, m4, m5])
    (hp : c.paused = true) :
    (∀ n, ∃ cn, interpolateN n c = some cn ∧ cn.t = c.t) ∧
    (∀ c1 c2, interpolate c = some c1 → interpolate c1 = some c2 →
      c2.interpolationPoints = c1.interpolationPoints ∧ c2.t = c1.t) ∧
    (∀ (k : Nat) (pk : DraggablePoint) (nx ny : ℚ) c1,
      interpolate c = some c1 →
      [p0, p1, p2, p3][k]? = some pk →
      (nx, ny) ≠ (pk.x, pk.y) → (k = 3 → c.t ≠ 0) → c.t < 1 →
      ∃ c2, interpolate (moveControlPoint c1 k nx ny) = some c2 ∧
        c2.t = c1.t ∧ c2.interpolationPoints ≠ c1.interpolationPoints) := by
  have h4 : c.controlPoints.length = 4 := by rw [hc]; rfl
  have h6 : c.interpolationPoints.length = 6 := by rw [hm]; rfl
  refine ⟨?_, ?_, ?_⟩
  · intro n
    obtain ⟨cn, hcn, _, _, _, ht⟩ := interpolateN_paused n c h4 h6 hp
    exact ⟨cn, hcn, ht⟩
  · intro c1 c2 h1 h2
    rw [interpolate_wf_paused c p0 p1 p2 p3 m0 m1 m2 m3 m4 m5 hc hm hp,
      Option.some_inj] at h1
    subst h1
    obtain ⟨n0, n1, n2, n3, n4, n5, hD⟩ :=
      list_len6 (deCasteljau c.t p0 p1 p2 p3 m0 m1 m2 m3 m4 m5)
        (deCasteljau_length c.t p0 p1 p2 p3 m0 m1 m2 m3 m4 m5)
    rw [interpolate_wf_paused _ p0 p1 p2 p3 n0 n1 n2 n3 n4 n5
      (by simpa using hc) (by simpa using hD) (by simpa using hp),
      Option.some_inj] at h2
    subst h2
    constructor
    · simpa using (deCasteljau_stable c.t p0 p1 p2 p3 m0 m1 m2 m3 m4 m5
        n0 n1 n2 n3 n4 n5 hD).trans hD.symm
    · simp
  · intro k pk nx ny c1 h1 hget hne hk3 ht1
    rw [interpolate_wf_paused c p0 p1 p2 p3 m0 m1 m2 m3 m4 m5 hc hm hp,
      Option.some_inj] at h1
    subst h1
    obtain ⟨n0, n1, n2, n3, n4, n5, hD⟩ :=
      list_len6 (deCasteljau c.t p0 p1 p2 p3 m0 m1 m2 m3 m4 m5)
        (deCasteljau_length c.t p0 p1 p2 p3 m0 m1 m2 m3 m4 m5)
    have hDc := hD
    simp only [deCasteljau, List.cons.injEq, and_true] at hDc
    obtain ⟨e0, e1, e2, e3, e4, e5⟩ := hDc
    have hk : k < 4 := by
      by_contra hk4
      rw [List.getElem?_eq_none (by simpa using Nat.le_of_not_lt hk4)] at hget
      exact Option.noConfusion hget
    interval_cases k
    · simp only [List.getElem?_cons_zero, Option.some.injEq] at hget
      subst hget
      have hmv : moveControlPoint
          { c with
            interpolationPoints := deCasteljau c.t p0 p1 p2 p3 m0 m1 m2 m3 m4 m5 }
          0 nx ny =
          { c with
            controlPoints := [p0.move nx ny, p1, p2, p3]
            interpolationPoints := deCasteljau c.t p0 p1 p2 p3 m0 m1 m2 m3 m4 m5 } := by
        simp [moveControlPoint, hc]
      rw [hmv]
      refine ⟨_, interpolate_wf_paused _ (p0.move nx ny) p1 p2 p3 n0 n1 n2 n3
        n4 n5 (by simp) (by simpa using hD) (by simpa using hp), by simp, ?_⟩
      intro heq
      simp only [BezierCurve.interpolationPoints] at heq
      rw [hD] at heq
      have hx := congrArg (fun l : List Point => (l.map Point.x)[0]?) heq
      have hy := congrArg (fun l : List Point => (l.map Point.y)[0]?) heq
      simp only [deCasteljau, List.map_cons, List.getElem?_cons_zero,
        Option.some.injEq, DraggablePoint.move] at hx hy
      have hx0 := congrArg Point.x e0
      have hy0 := congrArg Point.y e0
      simp only [] at hx0 hy0
      apply hne
      rw [lerp_left_cancel c.t nx p1.x p0.x ht1 (hx.trans hx0.symm),
        lerp_left_cancel c.t ny p1.y p0.y ht1 (hy.trans hy0.symm)]
    · simp only [List.getElem?_cons_succ, List.getElem?_cons_zero,
        Option.some.injEq] at hget
      subst hget
      have hmv : moveControlPoint
          { c with
            interpolationPoints := deCasteljau c.t p0 p1 p2 p3 m0 m1 m2 m3 m4 m5 }
          1 nx ny =
          { c with
            controlPoints := [p0, p1.move nx ny, p2, p3]
            interpolationPoints := deCasteljau c.t p0 p1 p2 p3 m0 m1 m2 m3 m4 m5 } := by
        simp [moveControlPoint, hc]
      rw [hmv]
      refine ⟨_, interpolate_wf_paused _ p0 (p1.move nx ny) p2 p3 n0 n1 n2 n3
        n4 n5 (by simp) (by simpa using hD) (by simpa using hp), by simp, ?_⟩
      intro heq
      simp only [BezierCurve.interpolationPoints] at heq
      rw [hD] at heq
      have hx := congrArg (fun l : List Point => (l.map Point.x)[1]?) heq
      have hy := congrArg (fun l : List Point => (l.map Point.y)[1]?) heq
      simp only [deCasteljau, List.map_cons, List.getElem?_cons_succ,
        List.getElem?_cons_zero, Option.some.injEq, DraggablePoint.move]
        at hx hy
      have hx0 := congrArg Point.x e1
      have hy0 := congrArg Point.y e1
      simp only [] at hx0 hy0
      apply hne
      rw [lerp_left_cancel c.t nx p2.x p1.x ht1 (hx.trans hx0.symm),
        lerp_left_cancel c.t ny p2.y p1.y ht1 (hy.trans hy0.symm)]
    · simp only [List.getElem?_cons_succ, List.getElem?_cons_zero,
        Option.some.injEq] at hget
      subst hget
      have hmv : moveControlPoint
          { c with
            interpolationPoints := deCasteljau c.t p0 p1 p2 p3 m0 m1 m2 m3 m4 m5 }
          2 nx ny =
          { c with
            controlPoints := [p0, p1, p2.move nx ny, p3]
            interpolationPoints := deCasteljau c.t p0 p1 p2 p3 m0 m1 m2 m3 m4 m5 } := by
        simp [moveControlPoint, hc]
      rw [hmv]
      refine ⟨_, interpolate_wf_paused _ p0 p1 (p2.move nx ny) p3 n0 n1 n2 n3
        n4 n5 (by simp) (by simpa using hD) (by simpa using hp), by simp, ?_⟩
      intro heq
      simp only [BezierCurve.interpolationPoints] at heq
      rw [hD] at heq
      have hx := congrArg (fun l : List Point => (l.map Point.x)[2]?) heq
      have hy := congrArg (fun l : List Point => (l.map Point.y)[2]?) heq
      simp only [deCasteljau, List.map_cons, List.getElem?_cons_succ,
        List.getElem?_cons_zero, Option.some.injEq, DraggablePoint.move]
        at hx hy
      have hx0 := congrArg Point.x e2
      have hy0 := congrArg Point.y e2
      simp only [] at hx0 hy0
      apply hne
      rw [lerp_left_cancel c.t nx p3.x p2.x ht1 (hx.trans hx0.symm),
        lerp_left_cancel c.t ny p3.y p2.y ht1 (hy.trans hy0.symm)]
    · simp only [List.getElem?_cons_succ, List.getElem?_cons_zero,
        Option.some.injEq] at hget
      subst hget
      have ht0 : c.t ≠ 0 := hk3 rfl
      have hmv : moveControlPoint
          { c with
            interpolationPoints := deCasteljau c.t p0 p1 p2 p3 m0 m1 m2 m3 m4 m5 }
          3 nx ny =
          { c with
            controlPoints := [p0, p1, p2, p3.move nx ny]
            interpolationPoints := deCasteljau c.t p0 p1 p2 p3 m0 m1 m2 m3 m4 m5 } := by
        simp [moveControlPoint, hc]
      rw [hmv]
      refine ⟨_, interpolate_wf_paused _ p0 p1 p2 (p3.move nx ny) n0 n1 n2 n3
        n4 n5 (by simp) (by simpa using hD) (by simpa using hp), by simp, ?_⟩
      intro heq
      simp only [BezierCurve.interpolationPoints] at heq
      rw [hD] at heq
      have hx := congrArg (fun l : List Point => (l.map Point.x)[2]?) heq
      have hy := congrArg (fun l : List Point => (l.map Point.y)[2]?) heq
      simp only [deCasteljau, List.map_cons, List.getElem?_cons_succ,
        List.getElem?_cons_zero, Option.some.injEq, DraggablePoint.move]
        at hx hy
      have hx0 := congrArg Point.x e2
      have hy0 := congrArg Point.y e2
      simp only [] at hx0 hy0
      apply hne
      rw [lerp_right_cancel c.t p2.x nx p3.x ht0 (hx.trans hx0.symm),
        lerp_right_cancel c.t p2.y ny p3.y ht0 (hy.trans hy0.symm)]

/-- Counterexample to C5 as stated: pausing at `t = 0` and moving P3 to
(200, 200) between two `interpolate` calls leaves all six markers (and
`t`) unchanged, though a control point moved. -/
theorem paused_move_P3_markers_unchanged :
    interpolate { sampleCurve with paused := true } = some c5a ∧
    interpolate (moveControlPoint c5a 3 200 200) = some c5b ∧
    (moveControlPoint c5a 3 200 200).controlPoints ≠ c5a.controlPoints ∧
    c5b.interpolationPoints = c5a.interpolationPoints ∧
    c5b.t = c5a.t := by
  refine ⟨?_, ?_, ?_, rfl, rfl⟩
  · rw [interpolate_wf_paused _ sampleP0 sampleP1 sampleP2 sampleP3 sampleM0
      sampleM1 sampleM2 sampleM3 sampleM4 sampleM5 rfl rfl rfl]
    norm_num [deCasteljau, lerp, c5a, sampleCurve, sampleP0, sampleP1,
      sampleP2, sampleP3, sampleM0, sampleM1, sampleM2, sampleM3, sampleM4,
      sampleM5, mkMarker]
  · have hmv : moveControlPoint c5a 3 200 200 = c5b := by
      simp [moveControlPoint, c5a, c5b, sampleCurve, DraggablePoint.move,
        sampleP3]
    rw [hmv, interpolate_wf_paused c5b sampleP0 sampleP1 sampleP2
      (sampleP3.move 200 200) (mkMarker 0 0 "Q₀") (mkMarker 0 100 "Q₁")
      (mkMarker 100 100 "Q₂") (mkMarker 0 0 "R₀") (mkMarker 0 100 "R₁")
      (mkMarker 0 0 "B") rfl rfl rfl]
    norm_num [deCasteljau, lerp, c5a, c5b, sampleCurve, sampleP0, sampleP1,
      sampleP2, sampleP3, sampleM0, sampleM1, sampleM2, sampleM3, sampleM4,
      sampleM5, mkMarker, DraggablePoint.move]
  · intro h
    have hx := congrArg (fun l : List DraggablePoint =>
      (l.map (fun p => p.x))[3]?) h
    norm_num [moveControlPoint, c5a, sampleCurve, sampleP0, sampleP1,
      sampleP2, sampleP3, DraggablePoint.move] at hx

/-- Witness for C5 on the sample curve paused at `t = 1/2`. -/
theorem paused_interpolate_behavior_witness :
    exC5.controlPoints = [sampleP0, sampleP1, sampleP2, sampleP3] ∧
    exC5.interpolationPoints = [sampleM0, sampleM1, sampleM2, sampleM3,
      sampleM4, sampleM5] ∧
    exC5.paused = true ∧
    ((∀ n, ∃ cn, interpolateN n exC5 = some cn ∧ cn.t = exC5.t) ∧
      (∀ c1 c2, interpolate exC5 = some c1 → interpolate c1 = some c2 →
        c2.interpolationPoints = c1.interpolationPoints ∧ c2.t = c1.t) ∧
      (∀ (k : Nat) (pk : DraggablePoint) (nx ny : ℚ) c1,
        interpolate exC5 = some c1 →
        [sampleP0, sampleP1, sampleP2, sampleP3][k]? = some pk →
        (nx, ny) ≠ (pk.x, pk.y) → (k = 3 → exC5.t ≠ 0) → exC5.t < 1 →
        ∃ c2, interpolate (moveControlPoint c1 k nx ny) = some c2 ∧
          c2.t = c1.t ∧ c2.interpolationPoints ≠ c1.interpolationPoints)) :=
  ⟨rfl, rfl, rfl,
    paused_interpolate_behavior exC5 sampleP0 sampleP1 sampleP2 sampleP3
      sampleM0 sampleM1 sampleM2 sampleM3 sampleM4 sampleM5 rfl rfl rfl⟩

/-- Witness for C9 at `tickOff`: one tick emits the clear and the draw of
the entry state and returns the state unchanged (overlay off). -/
theorem animateTick_draw_then_recompute_witness :
    animateTick tickOff = some (DrawCall.clearRect :: c9calls, tickOff) ∧
    ((∃ calls, BezierCurve.draw tickOff = some calls ∧
      (DrawCall.clearRect :: c9calls, tickOff).1 =
        DrawCall.clearRect :: calls) ∧
      (tickOff.interpolating = true →
        interpolate tickOff = some (DrawCall.clearRect :: c9calls,
          tickOff).2) ∧
      (tickOff.interpolating = false →
        (DrawCall.clearRect :: c9calls, tickOff).2 = tickOff)) := by
  have h : animateTick tickOff =
      some (DrawCall.clearRect :: c9calls, tickOff) := rfl
  exact ⟨h, animateTick_draw_then_recompute tickOff _ h⟩
